import Mathlib

/-!
# Verification of the `WaterfallLayout` engine

Shallow embedding of `src/packages/@react-spectrum/cards/src/WaterfallLayout.tsx`.
Numbers are modelled as rationals (`ℚ`); JavaScript `Math.floor` is `Int.floor`
and `Math.round` is `⌊x + 1/2⌋` (JS rounds half toward positive infinity).
`Infinity` defaults (`maxItemSize`, `maxColumns`) are modelled as `Option`
(`none` = unbounded), so `Math.min(Infinity, x) = x` becomes `jsMinQ none x = x`.
The engine assumes `minItemSize.width + minSpace.width > 0` (spec §4.1 edge
cases); the embedding is used on that guarded domain.

The layout cache (a JavaScript `Map`) is an insertion-ordered association list:
`set` updates the first matching key in place or appends, `delete` removes it,
matching the observable behavior of `Map` (whose keys are unique).
-/

namespace Waterfall

/-- `Size` from `@react-stately/virtualizer`: a width/height pair. -/
structure Size where
  width : ℚ
  height : ℚ
deriving DecidableEq, Repr

/-- `Rect` from `@react-stately/virtualizer`: position and size. -/
structure Rect where
  x : ℚ
  y : ℚ
  width : ℚ
  height : ℚ
deriving DecidableEq, Repr

/-- `rect.maxX = x + width`. -/
def Rect.maxX (r : Rect) : ℚ := r.x + r.width

/-- `rect.maxY = y + height`. -/
def Rect.maxY (r : Rect) : ℚ := r.y + r.height

/-- A `LayoutInfo` from `@react-stately/virtualizer`: the cache entry type.
The constructor `new LayoutInfo(type, key, rect)` initializes
`estimatedSize = false`. -/
structure LayoutInfo where
  type : String
  key : String
  rect : Rect
  estimatedSize : Bool
deriving DecidableEq, Repr

/-- A collection node: stable key, node type, and the optional intrinsic
`props.width` / `props.height` hints read by `buildCollection`. -/
structure Node where
  key : String
  type : String
  propsWidth : Option ℚ
  propsHeight : Option ℚ
deriving DecidableEq, Repr

/-- Text direction flag, `'ltr' | 'rtl'`. -/
inductive Direction where
  | ltr
  | rtl
deriving DecidableEq, Repr

/-- External inputs read from the virtualizer and flags (spec §6): the current
collection, `visibleRect` width/height, `virtualizer.contentSize.height`
(used by the navigator's full-column fallback probe), `isLoading` and the
text direction. -/
structure Env where
  collection : List Node
  visibleRect : Size
  contentHeight : ℚ
  isLoading : Bool
  direction : Direction
deriving DecidableEq, Repr

/-- The per-instance configuration fixed by the constructor.  `maxItemSize`
components and `maxColumns` default to `Infinity`, modelled as `none`. -/
structure Config where
  minItemSize : Size
  maxItemSizeWidth : Option ℚ
  maxItemSizeHeight : Option ℚ
  margin : ℚ
  minSpace : Size
  maxColumns : Option ℤ
  itemPadding : ℚ
deriving DecidableEq, Repr

/-- The constructor defaults: `minItemSize = 240×136`, `maxItemSize`
unbounded, `margin = 24` (hard coded), `minSpace = 24×24`, `maxColumns`
unbounded, `itemPadding = 56`. -/
def defaultConfig : Config :=
  { minItemSize := ⟨240, 136⟩
    maxItemSizeWidth := none
    maxItemSizeHeight := none
    margin := 24
    minSpace := ⟨24, 24⟩
    maxColumns := none
    itemPadding := 56 }

/-- The layout cache: key → `LayoutInfo`, insertion ordered. -/
abbrev Cache := List (String × LayoutInfo)

/-- `Map.get`. -/
def cacheGet : Cache → String → Option LayoutInfo
  | [], _ => none
  | p :: rest, k => if k = p.1 then some p.2 else cacheGet rest k

/-- `Map.set`: replace the entry in place if the key is present, else append. -/
def cacheSet : Cache → String → LayoutInfo → Cache
  | [], k, v => [(k, v)]
  | p :: rest, k, v => if k = p.1 then (k, v) :: rest else p :: cacheSet rest k v

/-- `Map.delete`. -/
def cacheDelete : Cache → String → Cache
  | [], _ => []
  | p :: rest, k => if k = p.1 then cacheDelete rest k else p :: cacheDelete rest k

/-- `collection.getItem(key)`: the first node with the given key, or null. -/
def collGetItem (coll : List Node) (k : String) : Option Node :=
  coll.find? (fun n => n.key == k)

/-- JS truthiness of an optional number: `undefined` and `0` are falsy. -/
def truthyQ : Option ℚ → Bool
  | none => false
  | some q => decide (q ≠ 0)

/-- JS truthiness of an optional key: `undefined` and the empty string are
falsy (`if (!key)`). -/
def jsTruthyKey : Option String → Bool
  | none => false
  | some s => decide (s ≠ "")

/-- `Math.min(m, x)` where `m` may be `Infinity` (`none`). -/
def jsMinQ : Option ℚ → ℚ → ℚ
  | none, x => x
  | some m, x => min m x

/-- `Math.min(m, x)` on integers where `m` may be `Infinity` (`none`). -/
def jsMinI : Option ℤ → ℤ → ℤ
  | none, x => x
  | some m, x => min m x

/-- `Math.round`: round half toward positive infinity. -/
def jsRound (q : ℚ) : ℤ := ⌊q + 1 / 2⌋

/-- `Math.max` over the (always nonempty) column-height array. -/
def listMax : List ℚ → ℚ
  | [] => 0
  | h :: t => t.foldl max h

/-- Lines 115-116: `columns = Math.floor(visibleWidth / (minItemSize.width +
minSpace.width))`; `numColumns = Math.max(1, Math.min(maxColumns, columns))`. -/
def numColumnsOf (cfg : Config) (visibleWidth : ℚ) : ℤ :=
  max 1 (jsMinI cfg.maxColumns ⌊visibleWidth / (cfg.minItemSize.width + cfg.minSpace.width)⌋)

/-- Lines 119-123: the item width derived from the available width, rounded
and clamped to `[minItemSize.width, maxItemSize.width]`. -/
def itemWidthOf (cfg : Config) (visibleWidth : ℚ) : ℚ :=
  let availableWidth := visibleWidth - cfg.margin * 2
  let n : ℚ := (numColumnsOf cfg visibleWidth : ℚ)
  let width := availableWidth - cfg.minSpace.width * (n - 1)
  max cfg.minItemSize.width (jsMinQ cfg.maxItemSizeWidth (jsRound (width / n) : ℚ))

/-- Line 128: `horizontalSpacing = Math.round((availableWidth - numColumns *
itemWidth) / Math.max(1, numColumns - 1))`. -/
def horizontalSpacingOf (cfg : Config) (visibleWidth : ℚ) : ℚ :=
  let availableWidth := visibleWidth - cfg.margin * 2
  let n : ℚ := (numColumnsOf cfg visibleWidth : ℚ)
  (jsRound ((availableWidth - n * itemWidthOf cfg visibleWidth) / max 1 (n - 1)) : ℚ)

/-- Lines 143-150: the height of an item that has no prior cache entry.
If both intrinsic props are truthy, scale `Math.round(nodeWidth * (itemWidth /
nodeHeight))`, clamp to `[minItemSize.height, maxItemSize.height]` and add
`itemPadding`; otherwise fall back to the square `height = itemWidth`. -/
def itemHeightFor (cfg : Config) (itemWidth : ℚ) (node : Node) : ℚ :=
  if truthyQ node.propsWidth && truthyQ node.propsHeight then
    let nodeWidth := node.propsWidth.getD 0
    let nodeHeight := node.propsHeight.getD 0
    let scaledHeight : ℚ := (jsRound (nodeWidth * (itemWidth / nodeHeight)) : ℚ)
    max cfg.minItemSize.height (jsMinQ cfg.maxItemSizeHeight scaledHeight) + cfg.itemPadding
  else
    itemWidth

/-- Lines 222-231: the index of the shortest column, lowest index on ties. -/
def getNextColumnIndex (columnHeights : List ℚ) : ℕ :=
  (List.range columnHeights.length).foldl
    (fun minIndex i =>
      if columnHeights.getD i 0 < columnHeights.getD minIndex 0 then i else minIndex)
    0

/-- Lines 133-169: the `for (let node of this.collection)` loop.  For each
node: reuse the cached height if present (marking `estimatedSize =
sizeChanged || old.estimatedSize`), else estimate it; place the item in the
shortest column and advance that column height by `height +
minSpace.height`. -/
def buildLoop (cfg : Config) (itemWidth horizontalSpacing : ℚ) (sizeChanged : Bool) :
    List Node → Cache → List ℚ → Cache × List ℚ
  | [], cache, columnHeights => (cache, columnHeights)
  | node :: rest, cache, columnHeights =>
    let old := cacheGet cache node.key
    let estimatedSize :=
      match old with
      | some o => sizeChanged || o.estimatedSize
      | none => true
    let height :=
      match old with
      | some o => o.rect.height
      | none => itemHeightFor cfg itemWidth node
    let column := getNextColumnIndex columnHeights
    let x := cfg.margin + (column : ℚ) * (itemWidth + horizontalSpacing)
    let y := columnHeights.getD column 0
    let li : LayoutInfo := ⟨node.type, node.key, ⟨x, y, itemWidth, height⟩, estimatedSize⟩
    buildLoop cfg itemWidth horizontalSpacing sizeChanged rest
      (cacheSet cache node.key li)
      (columnHeights.set column (y + height + cfg.minSpace.height))

/-- The loop run from the initial column-height array
(`Array(numColumns).fill(margin)`), returning the cache and final heights. -/
def buildResultOf (cfg : Config) (env : Env) (sizeChanged : Bool) (cache0 : Cache) :
    Cache × List ℚ :=
  let w := env.visibleRect.width
  buildLoop cfg (itemWidthOf cfg w) (horizontalSpacingOf cfg w) sizeChanged
    env.collection cache0 (List.replicate (numColumnsOf cfg w).toNat cfg.margin)

/-- Line 172: `maxHeight = Math.max(...columnHeights) - minSpace.height +
margin`, the flat baseline every column is reset to. -/
def maxHeightOf (cfg : Config) (env : Env) (sizeChanged : Bool) (cache0 : Cache) : ℚ :=
  listMax (buildResultOf cfg env sizeChanged cache0).2 - cfg.minSpace.height + cfg.margin

/-- The mutable layout state: the cache, the previous collection snapshot, and
the derived fields set by the last build.  The constructor (lines 63-81)
starts with an empty cache, `lastCollection = null`, and zeroed derived
fields. -/
structure LayoutState where
  layoutInfos : Cache
  lastCollection : Option (List Node)
  numColumns : ℤ
  itemWidth : ℚ
  horizontalSpacing : ℚ
  contentSize : Size
deriving DecidableEq, Repr

/-- The freshly constructed layout (lines 63-81 plus the `BaseLayout`
constructor's empty `layoutInfos` map). -/
def initialLayoutState : LayoutState :=
  { layoutInfos := []
    lastCollection := none
    numColumns := 0
    itemWidth := 0
    horizontalSpacing := 0
    contentSize := ⟨0, 0⟩ }

/-- Lines 111-200, `buildCollection`: compute column count / item width /
spacing, run the placement loop, reset every column to `maxHeight`, then
append the loader band (height 60 at `y = maxHeight`, or the full visible
height at `y = 0` when the collection is empty, defaulting to 60 when the
visible height is 0) when loading, or the full-viewport placeholder when
empty and not loading, and finally record `contentSize`. -/
def buildCollection (cfg : Config) (env : Env) (sizeChanged : Bool) (st : LayoutState) :
    LayoutState :=
  let w := env.visibleRect.width
  let numColumns := numColumnsOf cfg w
  let itemWidth := itemWidthOf cfg w
  let horizontalSpacing := horizontalSpacingOf cfg w
  let res := buildResultOf cfg env sizeChanged st.layoutInfos
  let maxHeight := maxHeightOf cfg env sizeChanged st.layoutInfos
  let y0 := (List.replicate res.2.length maxHeight).getD 0 0
  let afterLoader : Cache × ℚ :=
    if env.isLoading then
      let loaderY := if env.collection.length = 0 then 0 else y0
      let loaderHeight :=
        if env.collection.length = 0 then
          (if env.visibleRect.height = 0 then 60 else env.visibleRect.height)
        else 60
      let r : Rect := ⟨0, loaderY, w, loaderHeight⟩
      (cacheSet res.1 "loader" ⟨"loader", "loader", r, false⟩, r.maxY)
    else (res.1, y0)
  let afterPlaceholder : Cache × ℚ :=
    if env.collection.length = 0 ∧ env.isLoading = false then
      let r : Rect := ⟨0, 0, w, env.visibleRect.height⟩
      (cacheSet afterLoader.1 "placeholder" ⟨"placeholder", "placeholder", r, false⟩, r.maxY)
    else afterLoader
  { st with
    layoutInfos := afterPlaceholder.1
    numColumns := numColumns
    itemWidth := itemWidth
    horizontalSpacing := horizontalSpacing
    contentSize := ⟨w, afterPlaceholder.2⟩ }

/-- Lines 92-97: for every key of the previous collection snapshot that
`collection.getItem` no longer finds, delete its cache entry. -/
def deleteStale (coll : List Node) : List Node → Cache → Cache
  | [], c => c
  | n :: rest, c =>
    deleteStale coll rest
      (if (collGetItem coll n.key).isSome then c else cacheDelete c n.key)

/-- Lines 87-109, `validate`: run `buildCollection` first, then (only when a
previous snapshot exists) delete entries for removed keys, delete the
`loader` entry when not loading and the `placeholder` entry when the
collection is non-empty, and finally record the new snapshot. -/
def validate (cfg : Config) (env : Env) (sizeChanged : Bool) (st : LayoutState) :
    LayoutState :=
  let st1 := buildCollection cfg env sizeChanged st
  let cache :=
    match st.lastCollection with
    | none => st1.layoutInfos
    | some last =>
      let c1 := deleteStale env.collection last st1.layoutInfos
      let c2 := if env.isLoading then c1 else cacheDelete c1 "loader"
      let c3 := if env.collection.length > 0 then cacheDelete c2 "placeholder" else c2
      c3
  { st1 with layoutInfos := cache, lastCollection := some env.collection }

/-- Lines 202-220, `updateItemSize`.  When the measured height differs, the
source copies the entry (`layoutInfo.copy()` duplicates every field,
including a fresh rectangle and the `estimatedSize` flag), overwrites the
copy's `rect.height`, and stores the copy; the subsequent
`layoutInfo.estimatedSize = false` assignment mutates the old object that was
just replaced in the map, so the stored entry keeps the old flag. -/
def updateItemSize (cache : Cache) (key : String) (size : Option Size) : Bool × Cache :=
  match size, cacheGet cache key with
  | none, _ => (false, cache)
  | some _, none => (false, cache)
  | some s, some li =>
    if s.height ≠ li.rect.height then
      (true, cacheSet cache key
        ⟨li.type, li.key, ⟨li.rect.x, li.rect.y, li.rect.width, s.height⟩, li.estimatedSize⟩)
    else
      (false, cache)

/-- Modelled from the spec: `BaseLayout.getLayoutInfo` is not under `src/`;
per §6 it returns the cache entry for the key or null. -/
def getLayoutInfo (st : LayoutState) (key : String) : Option LayoutInfo :=
  cacheGet st.layoutInfos key

/-- Modelled from the spec: the `Rect.intersects` test used by
`_findClosest` (not under `src/`): two rectangles intersect when they
overlap in both axes. -/
def rectIntersects (a b : Rect) : Bool :=
  decide (a.x ≤ b.maxX) && decide (b.x ≤ a.maxX) &&
    decide (a.y ≤ b.maxY) && decide (b.y ≤ a.maxY)

/-- Squared distance between the top-left corners of two rectangles. -/
def distSq (a b : Rect) : ℚ :=
  (a.x - b.x) * (a.x - b.x) + (a.y - b.y) * (a.y - b.y)

/-- Modelled from the spec: `BaseLayout._findClosest` is not under `src/`;
per §4.4 it returns, among the cache entries whose rectangle intersects the
probe rectangle, one closest to the source rectangle (distance measured
between top-left corners), or null when none intersects. -/
def findClosest (cache : Cache) (target probe : Rect) : Option LayoutInfo :=
  cache.foldl
    (fun best p =>
      if rectIntersects p.2.rect probe then
        match best with
        | none => some p.2
        | some b => if distSq p.2.rect target < distSq b.rect target then some p.2 else some b
      else best)
    none

/-- Lines 233-249, `getClosestRight`.  The source dereferences
`layoutInfo.rect` without a guard, so a key with no cache entry throws a
`TypeError`; the embedding returns `Except.error ()` for that crash. -/
def getClosestRight (st : LayoutState) (env : Env) (key : String) :
    Except Unit (Option String) :=
  match getLayoutInfo st key with
  | none => .error ()
  | some li =>
    let probe : Rect :=
      ⟨li.rect.maxX + 1, li.rect.y, li.rect.width + st.horizontalSpacing, li.rect.height⟩
    let k1 := (findClosest st.layoutInfos li.rect probe).map LayoutInfo.key
    if jsTruthyKey k1 then .ok k1
    else
      let probe2 : Rect :=
        ⟨li.rect.maxX + 1, 0, li.rect.width + st.horizontalSpacing, env.contentHeight⟩
      .ok ((findClosest st.layoutInfos li.rect probe2).map LayoutInfo.key)

/-- Lines 251-263, `getClosestLeft`: the mirror of `getClosestRight`, probing
the adjacent column to the left; same unguarded dereference. -/
def getClosestLeft (st : LayoutState) (env : Env) (key : String) :
    Except Unit (Option String) :=
  match getLayoutInfo st key with
  | none => .error ()
  | some li =>
    let probe : Rect :=
      ⟨li.rect.x - li.rect.width - st.horizontalSpacing - 1, li.rect.y,
        li.rect.width + st.horizontalSpacing, li.rect.height⟩
    let k1 := (findClosest st.layoutInfos li.rect probe).map LayoutInfo.key
    if jsTruthyKey k1 then .ok k1
    else
      let probe2 : Rect :=
        ⟨li.rect.x - li.rect.width - st.horizontalSpacing - 1, 0,
          li.rect.width + st.horizontalSpacing, env.contentHeight⟩
      .ok ((findClosest st.layoutInfos li.rect probe2).map LayoutInfo.key)

/-- Lines 265-267: under `rtl` the right query swaps to `getClosestLeft`. -/
def getKeyRightOf (st : LayoutState) (env : Env) (key : String) :
    Except Unit (Option String) :=
  if env.direction = .rtl then getClosestLeft st env key else getClosestRight st env key

/-- Lines 269-271: under `rtl` the left query swaps to `getClosestRight`. -/
def getKeyLeftOf (st : LayoutState) (env : Env) (key : String) :
    Except Unit (Option String) :=
  if env.direction = .rtl then getClosestRight st env key else getClosestLeft st env key

/-! ## Evaluation helpers for `Int.floor`-based quantities -/

theorem floor_eq_of_bounds {q : ℚ} {n : ℤ} (h1 : (n : ℚ) ≤ q) (h2 : q < n + 1) :
    ⌊q⌋ = n :=
  Int.floor_eq_iff.mpr ⟨h1, h2⟩

theorem jsRound_eq_of_bounds {q : ℚ} {n : ℤ} (h1 : (n : ℚ) ≤ q + 1 / 2)
    (h2 : q + 1 / 2 < n + 1) : jsRound q = n :=
  Int.floor_eq_iff.mpr ⟨h1, h2⟩

theorem numColumnsOf_eval (cfg : Config) (w : ℚ) (c : ℤ)
    (hc : ⌊w / (cfg.minItemSize.width + cfg.minSpace.width)⌋ = c) :
    numColumnsOf cfg w = max 1 (jsMinI cfg.maxColumns c) := by
  unfold numColumnsOf; rw [hc]

theorem itemWidthOf_eval (cfg : Config) (w : ℚ) (r : ℤ)
    (hr : jsRound ((w - cfg.margin * 2 - cfg.minSpace.width * ((numColumnsOf cfg w : ℚ) - 1)) /
      (numColumnsOf cfg w : ℚ)) = r) :
    itemWidthOf cfg w = max cfg.minItemSize.width (jsMinQ cfg.maxItemSizeWidth (r : ℚ)) := by
  simp only [itemWidthOf]
  rw [hr]

theorem horizontalSpacingOf_eval (cfg : Config) (w : ℚ) (r : ℤ)
    (hr : jsRound ((w - cfg.margin * 2 - (numColumnsOf cfg w : ℚ) * itemWidthOf cfg w) /
      max 1 ((numColumnsOf cfg w : ℚ) - 1)) = r) :
    horizontalSpacingOf cfg w = (r : ℚ) := by
  simp only [horizontalSpacingOf]
  rw [hr]

/-- At viewport width 800 with the default configuration,
`columns = ⌊800 / 264⌋ = 3`. -/
theorem hn800 : numColumnsOf defaultConfig 800 = 3 := by
  rw [numColumnsOf_eval _ _ 3 (floor_eq_of_bounds (by norm_num [defaultConfig])
    (by norm_num [defaultConfig]))]
  norm_num [defaultConfig, jsMinI]

/-- At viewport width 800, `itemWidth = round(704 / 3) = 235`, clamped up to
`minItemSize.width = 240`. -/
theorem hw800 : itemWidthOf defaultConfig 800 = 240 := by
  rw [itemWidthOf_eval _ _ 235 (by
    rw [hn800]
    exact jsRound_eq_of_bounds (by norm_num [defaultConfig]) (by norm_num [defaultConfig]))]
  norm_num [defaultConfig, jsMinQ]

/-- At viewport width 800, `horizontalSpacing = round((752 - 720) / 2) = 16`. -/
theorem hs800 : horizontalSpacingOf defaultConfig 800 = 16 := by
  rw [horizontalSpacingOf_eval _ _ 16 (by
    rw [hn800, hw800]
    exact jsRound_eq_of_bounds (by norm_num [defaultConfig]) (by norm_num [defaultConfig]))]
  norm_num

/-! ## The concrete scenario of claim C5 -/

/-- Four items with no intrinsic size, viewport 800×600, not loading. -/
def envC5 : Env :=
  { collection := [⟨"1", "item", none, none⟩, ⟨"2", "item", none, none⟩,
      ⟨"3", "item", none, none⟩, ⟨"4", "item", none, none⟩]
    visibleRect := ⟨800, 600⟩
    contentHeight := 0
    isLoading := false
    direction := .ltr }

/-- The expected cache: columns 0, 1, 2, 0 (x = 24, 280, 536, 24), square
fallback heights 240 = itemWidth. -/
def cacheC5 : Cache :=
  [("1", ⟨"item", "1", ⟨24, 24, 240, 240⟩, true⟩),
   ("2", ⟨"item", "2", ⟨280, 24, 240, 240⟩, true⟩),
   ("3", ⟨"item", "3", ⟨536, 24, 240, 240⟩, true⟩),
   ("4", ⟨"item", "4", ⟨24, 288, 240, 240⟩, true⟩)]

set_option maxHeartbeats 1000000 in
theorem buildC5_loop : buildResultOf defaultConfig envC5 false [] = (cacheC5, [552, 288, 288]) := by
  norm_num [buildResultOf, hn800, hw800, hs800, buildLoop, cacheGet, cacheSet,
    itemHeightFor, truthyQ, getNextColumnIndex, List.range_succ, cacheC5,
    List.replicate_succ, show ((3 : ℤ).toNat) = 3 from rfl,
    show envC5.visibleRect.width = 800 from rfl,
    show envC5.collection = [⟨"1", "item", none, none⟩, ⟨"2", "item", none, none⟩,
      ⟨"3", "item", none, none⟩, ⟨"4", "item", none, none⟩] from rfl,
    show defaultConfig.margin = 24 from rfl,
    show defaultConfig.minSpace.height = 24 from rfl,
    show ("1" : String) ≠ "2" from by decide, show ("1" : String) ≠ "3" from by decide,
    show ("1" : String) ≠ "4" from by decide, show ("2" : String) ≠ "3" from by decide,
    show ("2" : String) ≠ "4" from by decide, show ("3" : String) ≠ "4" from by decide,
    show ("2" : String) ≠ "1" from by decide, show ("3" : String) ≠ "1" from by decide,
    show ("4" : String) ≠ "1" from by decide, show ("3" : String) ≠ "2" from by decide,
    show ("4" : String) ≠ "2" from by decide, show ("4" : String) ≠ "3" from by decide]

set_option maxHeartbeats 1000000 in
/-- C5: with viewport width 800, `minItemSize = (240, 136)`, `minSpace =
(24, 24)` and margin 24, the build computes `numColumns = 3` and `itemWidth
= 240` (the rounded width 235 clamped up to `minItemSize.width`), and the
four square-fallback items (height = itemWidth = 240) land in columns
0, 1, 2, 0 in collection order: their x coordinates are 24 = margin,
280 = margin + 1·(240 + 16), 536 = margin + 2·(240 + 16), and 24 again with
y = 288 for the fourth item, which goes to column 0, the shortest after the
first pass. -/
theorem c5_concrete_build_scenario :
    buildCollection defaultConfig envC5 false initialLayoutState =
      { layoutInfos := cacheC5
        lastCollection := none
        numColumns := 3
        itemWidth := 240
        horizontalSpacing := 16
        contentSize := ⟨800, 552⟩ } := by
  norm_num [buildCollection, maxHeightOf, buildC5_loop, hn800, hw800, hs800,
    listMax, Rect.maxY, LayoutState.mk.injEq,
    show envC5.visibleRect.width = 800 from rfl,
    show envC5.collection.length = 4 from rfl,
    show envC5.isLoading = false from rfl,
    show initialLayoutState.layoutInfos = [] from rfl,
    show initialLayoutState.lastCollection = none from rfl,
    show defaultConfig.minSpace.height = 24 from rfl,
    show defaultConfig.margin = 24 from rfl]

/-! ## Association-list lemmas -/

/-- The key list of a cache. -/
def cacheKeys (c : Cache) : List String := c.map Prod.fst

theorem cacheGet_set (c : Cache) (k : String) (v : LayoutInfo) (j : String) :
    cacheGet (cacheSet c k v) j = if j = k then some v else cacheGet c j := by
  induction c with
  | nil => simp only [cacheSet, cacheGet]
  | cons p rest ih =>
    simp only [cacheSet]
    by_cases hk : k = p.1
    · rw [if_pos hk]
      simp only [cacheGet]
      by_cases h : j = k
      · rw [if_pos h, if_pos h]
      · rw [if_neg h, if_neg h, if_neg (hk ▸ h)]
    · rw [if_neg hk]
      simp only [cacheGet]
      by_cases hj : j = p.1
      · rw [if_pos hj, if_neg (fun hh : j = k => hk (hh ▸ hj)), if_pos hj]
      · rw [if_neg hj, if_neg hj, ih]

theorem cacheGet_delete (c : Cache) (k j : String) :
    cacheGet (cacheDelete c k) j = if j = k then none else cacheGet c j := by
  induction c with
  | nil => simp [cacheDelete, cacheGet]
  | cons p rest ih =>
    simp only [cacheDelete]
    by_cases hk : k = p.1
    · rw [if_pos hk, ih]
      by_cases h : j = k
      · rw [if_pos h, if_pos h]
      · rw [if_neg h, if_neg h]
        simp only [cacheGet]
        rw [if_neg (hk ▸ h)]
    · rw [if_neg hk]
      simp only [cacheGet]
      by_cases hj : j = p.1
      · rw [if_pos hj, if_neg (fun hh : j = k => hk (hh ▸ hj)), if_pos hj]
      · rw [if_neg hj, ih, if_neg hj]

theorem cacheGet_isSome_iff (c : Cache) (j : String) :
    (cacheGet c j).isSome = true ↔ j ∈ cacheKeys c := by
  induction c with
  | nil => simp [cacheGet, cacheKeys]
  | cons p rest ih =>
    simp only [cacheGet, cacheKeys, List.map_cons, List.mem_cons]
    by_cases hj : j = p.1
    · simp [hj]
    · simp only [if_neg hj]
      rw [ih]
      simp [cacheKeys, hj]

theorem cacheKeys_set (c : Cache) (k : String) (v : LayoutInfo) :
    cacheKeys (cacheSet c k v) =
      if k ∈ cacheKeys c then cacheKeys c else cacheKeys c ++ [k] := by
  induction c with
  | nil => simp [cacheSet, cacheKeys]
  | cons p rest ih =>
    simp only [cacheSet, cacheKeys, List.map_cons]
    by_cases hk : k = p.1
    · rw [if_pos hk, if_pos (by simp [cacheKeys, hk])]
      simp [cacheKeys, hk]
    · rw [if_neg hk]
      simp only [cacheKeys, List.map_cons] at ih ⊢
      rw [ih]
      by_cases hmem : k ∈ List.map Prod.fst rest
      · rw [if_pos hmem, if_pos (by simp [hmem])]
      · rw [if_neg hmem, if_neg (by simp [hmem, hk])]
        simp

theorem nodup_cacheKeys_set (c : Cache) (k : String) (v : LayoutInfo)
    (h : (cacheKeys c).Nodup) : (cacheKeys (cacheSet c k v)).Nodup := by
  rw [cacheKeys_set]
  by_cases hmem : k ∈ cacheKeys c
  · rw [if_pos hmem]; exact h
  · rw [if_neg hmem]
    refine h.append (List.nodup_singleton k) ?_
    intro a ha hb
    rw [List.mem_singleton] at hb
    exact hmem (hb ▸ ha)

theorem cacheDelete_sublist (c : Cache) (k : String) : List.Sublist (cacheDelete c k) c := by
  induction c with
  | nil => simp [cacheDelete]
  | cons p rest ih =>
    simp only [cacheDelete]
    by_cases hk : k = p.1
    · rw [if_pos hk]; exact ih.cons p
    · rw [if_neg hk]; exact ih.cons₂ p

theorem nodup_cacheKeys_delete (c : Cache) (k : String)
    (h : (cacheKeys c).Nodup) : (cacheKeys (cacheDelete c k)).Nodup :=
  h.sublist ((cacheDelete_sublist c k).map Prod.fst)

/-! ## buildLoop and deleteStale lemmas -/

theorem buildLoop_get_isSome (cfg : Config) (iw hsp : ℚ) (sz : Bool) (nodes : List Node) :
    ∀ (cache : Cache) (hs : List ℚ) (k : String),
      (cacheGet (buildLoop cfg iw hsp sz nodes cache hs).1 k).isSome = true ↔
        ((cacheGet cache k).isSome = true ∨ k ∈ nodes.map Node.key) := by
  induction nodes with
  | nil => intro cache hs k; simp [buildLoop]
  | cons node rest ih =>
    intro cache hs k
    simp only [buildLoop]
    rw [ih]
    rw [cacheGet_set]
    by_cases h : k = node.key <;> simp [h]

theorem buildLoop_nodup (cfg : Config) (iw hsp : ℚ) (sz : Bool) (nodes : List Node) :
    ∀ (cache : Cache) (hs : List ℚ), (cacheKeys cache).Nodup →
      (cacheKeys (buildLoop cfg iw hsp sz nodes cache hs).1).Nodup := by
  induction nodes with
  | nil => intro cache hs h; simpa [buildLoop] using h
  | cons node rest ih =>
    intro cache hs h
    simp only [buildLoop]
    exact ih _ _ (nodup_cacheKeys_set _ _ _ h)

theorem buildLoop_len (cfg : Config) (iw hsp : ℚ) (sz : Bool) (nodes : List Node) :
    ∀ (cache : Cache) (hs : List ℚ),
      (buildLoop cfg iw hsp sz nodes cache hs).2.length = hs.length := by
  induction nodes with
  | nil => intro cache hs; simp [buildLoop]
  | cons node rest ih =>
    intro cache hs
    simp only [buildLoop]
    rw [ih, List.length_set]

theorem collGetItem_isSome (coll : List Node) (k : String) :
    (collGetItem coll k).isSome = true ↔ k ∈ coll.map Node.key := by
  simp [collGetItem, List.find?_isSome, List.mem_map, beq_iff_eq]

theorem collGetItem_eq_none (coll : List Node) (k : String) :
    collGetItem coll k = none ↔ k ∉ coll.map Node.key := by
  rw [← collGetItem_isSome]
  cases h : collGetItem coll k <;> simp

theorem cacheGet_deleteStale (coll : List Node) (last : List Node) :
    ∀ (c : Cache) (k : String),
      cacheGet (deleteStale coll last c) k =
        if k ∈ last.map Node.key ∧ k ∉ coll.map Node.key then none else cacheGet c k := by
  induction last with
  | nil => intro c k; simp [deleteStale]
  | cons n rest ih =>
    intro c k
    simp only [deleteStale, List.map_cons, List.mem_cons]
    rw [ih]
    by_cases h1 : (collGetItem coll n.key).isSome = true
    · rw [if_pos h1]
      have hn : n.key ∈ coll.map Node.key := (collGetItem_isSome coll n.key).mp h1
      by_cases hc : k ∈ rest.map Node.key ∧ k ∉ coll.map Node.key
      · rw [if_pos hc, if_pos ⟨Or.inr hc.1, hc.2⟩]
      · rw [if_neg hc]
        by_cases hd : (k = n.key ∨ k ∈ rest.map Node.key) ∧ k ∉ coll.map Node.key
        · rcases hd with ⟨hd1 | hd2, hd3⟩
          · exact absurd (hd1 ▸ hn) hd3
          · exact absurd ⟨hd2, hd3⟩ hc
        · rw [if_neg hd]
    · rw [if_neg h1]
      have hn : n.key ∉ coll.map Node.key := by
        intro hmem
        exact h1 ((collGetItem_isSome coll n.key).mpr hmem)
      by_cases hc : k ∈ rest.map Node.key ∧ k ∉ coll.map Node.key
      · rw [if_pos hc, if_pos ⟨Or.inr hc.1, hc.2⟩]
      · rw [if_neg hc, cacheGet_delete]
        by_cases h2 : k = n.key
        · rw [if_pos h2, if_pos ⟨Or.inl h2, by rw [h2]; exact hn⟩]
        · rw [if_neg h2]
          by_cases hd : (k = n.key ∨ k ∈ rest.map Node.key) ∧ k ∉ coll.map Node.key
          · rcases hd with ⟨hd1 | hd2, hd3⟩
            · exact absurd hd1 h2
            · exact absurd ⟨hd2, hd3⟩ hc
          · rw [if_neg hd]

theorem nodup_deleteStale (coll : List Node) (last : List Node) :
    ∀ (c : Cache), (cacheKeys c).Nodup → (cacheKeys (deleteStale coll last c)).Nodup := by
  induction last with
  | nil => intro c h; simpa [deleteStale] using h
  | cons n rest ih =>
    intro c h
    simp only [deleteStale]
    by_cases h1 : (collGetItem coll n.key).isSome = true
    · rw [if_pos h1]; exact ih _ h
    · rw [if_neg h1]; exact ih _ (nodup_cacheKeys_delete _ _ h)

/-! ## Claims C7, C1, C2 -/

/-- An arbitrary environment for the navigator queries of C2. -/
def envC2 : Env :=
  { collection := []
    visibleRect := ⟨800, 600⟩
    contentHeight := 552
    isLoading := false
    direction := .ltr }

/-- C7: `updateItemSize(key, size)` returns `false` and leaves the entire
layout cache unchanged whenever the size is absent, no cache entry exists for
the key, or the measured height equals the cached entry's height. -/
theorem c7_updateItemSize_noop :
    (∀ (c : Cache) (k : String), updateItemSize c k none = (false, c)) ∧
    (∀ (c : Cache) (k : String) (s : Option Size), cacheGet c k = none →
      updateItemSize c k s = (false, c)) ∧
    (∀ (c : Cache) (k : String) (s : Size) (li : LayoutInfo), cacheGet c k = some li →
      s.height = li.rect.height → updateItemSize c k (some s) = (false, c)) := by
  refine ⟨fun c k => rfl, fun c k s h => ?_, fun c k s li h hh => ?_⟩
  · cases s with
    | none => rfl
    | some s => simp [updateItemSize, h]
  · simp [updateItemSize, h, hh]

/-- Witness for C7 at a concrete cache: the entry for `"a"` has height 100 and
the no-op law applies to a measurement of the same height. -/
theorem c7_updateItemSize_noop_witness :
    cacheGet [("a", ⟨"item", "a", ⟨24, 24, 240, 100⟩, true⟩)] "a" =
      some ⟨"item", "a", ⟨24, 24, 240, 100⟩, true⟩ ∧
    updateItemSize [("a", ⟨"item", "a", ⟨24, 24, 240, 100⟩, true⟩)] "a" (some ⟨240, 100⟩) =
      (false, [("a", ⟨"item", "a", ⟨24, 24, 240, 100⟩, true⟩)]) :=
  ⟨rfl, c7_updateItemSize_noop.2.2 _ _ _ _ rfl rfl⟩

/-- C1 (code bug): when the measured height differs, `updateItemSize` stores a
copy of the entry with the new height, but the `layoutInfo.estimatedSize =
false` assignment on line 215 mutates the object that was just replaced in
the map, so the stored entry keeps its old `estimatedSize` flag.  Here the
old entry has `estimatedSize = true`, the call returns `true` and replaces
the entry with the same position and the new height 200, but the stored
flag is still `true`, not `false` as the spec requires. -/
theorem c1_updateItemSize_keeps_old_estimated_flag :
    updateItemSize [("a", ⟨"item", "a", ⟨24, 24, 240, 100⟩, true⟩)] "a" (some ⟨240, 200⟩) =
      (true, [("a", ⟨"item", "a", ⟨24, 24, 240, 200⟩, true⟩)]) := by
  norm_num [updateItemSize, cacheGet, cacheSet]

/-- C2 (code bug): every navigator query on a key with no cache entry
dereferences the undefined result of `getLayoutInfo` (`layoutInfo.rect`), a
`TypeError`, instead of returning a null result.  The embedding signals the
crash as `Except.error ()`: all four queries crash on the fresh (empty)
layout state. -/
theorem c2_navigator_missing_key_crashes :
    getLayoutInfo initialLayoutState "a" = none ∧
    getClosestRight initialLayoutState envC2 "a" = .error () ∧
    getClosestLeft initialLayoutState envC2 "a" = .error () ∧
    getKeyRightOf initialLayoutState envC2 "a" = .error () ∧
    getKeyLeftOf initialLayoutState envC2 "a" = .error () ∧
    getKeyRightOf initialLayoutState { envC2 with direction := .rtl } "a" = .error () ∧
    getKeyLeftOf initialLayoutState { envC2 with direction := .rtl } "a" = .error () :=
  ⟨rfl, rfl, rfl, rfl, rfl, rfl, rfl⟩

/-! ## Claims C6, C10, C9 -/

/-- C6: for a fixed configuration with `minItemSize.width + minSpace.width >
0`, the column count is monotone in the viewport width, at least 1, and at
most `maxColumns` whenever `maxColumns` is finite and at least 1 (zero or
negative `maxColumns` must be guarded by callers, spec §4.1). -/
theorem c6_numColumns_monotone_and_bounded (cfg : Config) (w1 w2 : ℚ)
    (hpos : 0 < cfg.minItemSize.width + cfg.minSpace.width)
    (hw : w1 ≤ w2) :
    numColumnsOf cfg w1 ≤ numColumnsOf cfg w2 ∧
    1 ≤ numColumnsOf cfg w1 ∧
    (∀ m : ℤ, cfg.maxColumns = some m → 1 ≤ m → numColumnsOf cfg w1 ≤ m) := by
  refine ⟨?_, le_max_left _ _, ?_⟩
  · unfold numColumnsOf
    have hfloor : ⌊w1 / (cfg.minItemSize.width + cfg.minSpace.width)⌋ ≤
        ⌊w2 / (cfg.minItemSize.width + cfg.minSpace.width)⌋ :=
      Int.floor_le_floor (div_le_div_of_nonneg_right hw hpos.le)
    refine max_le_max (le_refl 1) ?_
    cases hm : cfg.maxColumns with
    | none => exact hfloor
    | some m => exact min_le_min (le_refl m) hfloor
  · intro m hm h1
    unfold numColumnsOf
    rw [hm]
    exact max_le h1 (min_le_left _ _)

/-- Witness for C6: default geometry with `maxColumns = 2`, widths 400 and
800. -/
theorem c6_numColumns_monotone_and_bounded_witness :
    (0 : ℚ) < { defaultConfig with maxColumns := some 2 }.minItemSize.width +
      { defaultConfig with maxColumns := some 2 }.minSpace.width ∧
    (400 : ℚ) ≤ 800 ∧
    (numColumnsOf { defaultConfig with maxColumns := some 2 } 400 ≤
       numColumnsOf { defaultConfig with maxColumns := some 2 } 800 ∧
     1 ≤ numColumnsOf { defaultConfig with maxColumns := some 2 } 400 ∧
     (∀ m : ℤ, ({ defaultConfig with maxColumns := some 2 } : Config).maxColumns = some m →
       1 ≤ m → numColumnsOf { defaultConfig with maxColumns := some 2 } 400 ≤ m)) :=
  ⟨by norm_num [defaultConfig], by norm_num,
    c6_numColumns_monotone_and_bounded _ 400 800 (by norm_num [defaultConfig]) (by norm_num)⟩

/-- C10: the aspect-ratio branch of the height estimate is taken exactly when
both intrinsic props are present and nonzero (`0` is falsy in JS, so a zero
width or height falls back to the square height `itemWidth`); whenever the
branch is taken the divisor `nodeHeight` of the scaling formula is nonzero. -/
theorem c10_aspect_branch_guard (cfg : Config) (iw : ℚ) (node : Node) :
    ((truthyQ node.propsWidth && truthyQ node.propsHeight) = true →
      node.propsHeight.getD 0 ≠ 0 ∧
      ∃ w h, node.propsWidth = some w ∧ node.propsHeight = some h ∧ w ≠ 0 ∧ h ≠ 0) ∧
    ((truthyQ node.propsWidth && truthyQ node.propsHeight) = false →
      itemHeightFor cfg iw node = iw) := by
  constructor
  · intro hg
    rcases hw : node.propsWidth with _ | w <;> rcases hh : node.propsHeight with _ | h <;>
      rw [hw, hh] at hg <;> simp [truthyQ] at hg
    rcases hg with ⟨hw0, hh0⟩
    exact ⟨by simp [hh0], w, h, rfl, rfl, hw0, hh0⟩
  · intro hg
    rw [itemHeightFor, if_neg (by rw [hg]; exact Bool.false_ne_true)]

/-- Witness for C10: a node with `props.height = 0` (falsy) takes the square
fallback. -/
theorem c10_aspect_branch_guard_witness :
    (truthyQ (⟨"n", "item", some 100, some 0⟩ : Node).propsWidth &&
      truthyQ (⟨"n", "item", some 100, some 0⟩ : Node).propsHeight) = false ∧
    itemHeightFor defaultConfig 240 ⟨"n", "item", some 100, some 0⟩ = 240 :=
  ⟨by simp [truthyQ], (c10_aspect_branch_guard defaultConfig 240 _).2 (by simp [truthyQ])⟩

/-- C9: the navigator queries read the direction flag only to swap left and
right: under `rtl`, `getKeyLeftOf` is exactly `getClosestRight` and
`getKeyRightOf` is exactly `getClosestLeft`, over the unchanged layout state
(the queries never modify the cache, so every rectangle is identical before
and after the flip).  In particular if B is the `closestRight` of A under
`ltr`, then after flipping the direction to `rtl` the left query on A
returns B. -/
theorem c9_navigator_rtl_swap (st : LayoutState) (env : Env) (A B : String)
    (h : getClosestRight st env A = Except.ok (some B)) :
    getKeyLeftOf st { env with direction := .rtl } A = Except.ok (some B) ∧
    (∀ k, getKeyRightOf st { env with direction := .rtl } k = getClosestLeft st env k) ∧
    (∀ k, getKeyLeftOf st { env with direction := .rtl } k = getClosestRight st env k) :=
  ⟨h, fun _ => rfl, fun _ => rfl⟩

/-- A two-column layout state for the C9 witness: item "a" at (24, 24) and
item "b" in the adjacent column at (280, 24), horizontal spacing 16. -/
def stC9 : LayoutState :=
  { layoutInfos :=
      [("a", ⟨"item", "a", ⟨24, 24, 240, 240⟩, true⟩),
       ("b", ⟨"item", "b", ⟨280, 24, 240, 240⟩, true⟩)]
    lastCollection := none
    numColumns := 3
    itemWidth := 240
    horizontalSpacing := 16
    contentSize := ⟨800, 552⟩ }

/-- Witness for C9: "b" is the closest-right of "a", and stays the result of
the left query after the direction flip. -/
theorem c9_navigator_rtl_swap_witness :
    getClosestRight stC9 envC2 "a" = Except.ok (some "b") ∧
    getKeyLeftOf stC9 { envC2 with direction := .rtl } "a" = Except.ok (some "b") := by
  have h : getClosestRight stC9 envC2 "a" = Except.ok (some "b") := by
    norm_num [getClosestRight, getLayoutInfo, stC9, cacheGet, findClosest, rectIntersects,
      distSq, jsTruthyKey, Rect.maxX, Rect.maxY,
      show ("a" : String) ≠ "b" from by decide, show ("b" : String) ≠ "a" from by decide,
      show ("b" : String) ≠ "" from by decide]
  exact ⟨h, (c9_navigator_rtl_swap stC9 envC2 "a" "b" h).1⟩

/-! ## Claim C8: the loader rectangle -/

theorem replicate_getD_zero {a : ℚ} {m : ℕ} (h : 0 < m) :
    (List.replicate m a).getD 0 0 = a := by
  cases m with
  | zero => omega
  | succ mm => simp [List.replicate_succ]

theorem one_le_numColumnsOf (cfg : Config) (w : ℚ) : 1 ≤ numColumnsOf cfg w :=
  le_max_left _ _

/-- C8: when loading, the loader entry is a full-width band: height 60 at
`y = maxHeight` when the collection is non-empty; `(0, 0, viewportWidth, h)`
with `h` the visible height (or 60 when that height is zero) and no top
margin offset when the collection is empty. -/
theorem c8_loader_rect (cfg : Config) (env : Env) (sz : Bool) (st : LayoutState)
    (hL : env.isLoading = true) :
    (env.collection ≠ [] →
      cacheGet (buildCollection cfg env sz st).layoutInfos "loader" =
        some ⟨"loader", "loader",
          ⟨0, maxHeightOf cfg env sz st.layoutInfos, env.visibleRect.width, 60⟩, false⟩) ∧
    (env.collection = [] →
      cacheGet (buildCollection cfg env sz st).layoutInfos "loader" =
        some ⟨"loader", "loader",
          ⟨0, 0, env.visibleRect.width,
            if env.visibleRect.height = 0 then 60 else env.visibleRect.height⟩, false⟩) := by
  have hy0 : (List.replicate (buildResultOf cfg env sz st.layoutInfos).2.length
      (maxHeightOf cfg env sz st.layoutInfos)).getD 0 0 = maxHeightOf cfg env sz st.layoutInfos := by
    refine replicate_getD_zero ?_
    rw [buildResultOf, buildLoop_len, List.length_replicate]
    have h1 : 1 ≤ numColumnsOf cfg env.visibleRect.width := one_le_numColumnsOf cfg _
    omega
  constructor
  · intro hne
    have hlen : ¬ env.collection.length = 0 := by
      simpa [List.length_eq_zero] using hne
    simp only [buildCollection, hL, if_true, if_neg hlen]
    rw [if_neg (by simp [hlen])]
    simp only [hy0]
    rw [cacheGet_set]
    simp
  · intro he
    have hlen : env.collection.length = 0 := by simp [he]
    simp only [buildCollection, hL, if_true, if_pos hlen]
    rw [if_neg (by simp [hL])]
    rw [cacheGet_set]
    simp

/-- A loading environment with one item for the C8 witness. -/
def envC8 : Env :=
  { collection := [⟨"a", "item", none, none⟩]
    visibleRect := ⟨800, 600⟩
    contentHeight := 0
    isLoading := true
    direction := .ltr }

/-- Witness for C8 at a non-empty loading collection. -/
theorem c8_loader_rect_witness :
    envC8.isLoading = true ∧ envC8.collection ≠ [] ∧
    cacheGet (buildCollection defaultConfig envC8 false initialLayoutState).layoutInfos "loader" =
      some ⟨"loader", "loader",
        ⟨0, maxHeightOf defaultConfig envC8 false initialLayoutState.layoutInfos,
          envC8.visibleRect.width, 60⟩, false⟩ :=
  ⟨rfl, by simp [envC8],
    (c8_loader_rect defaultConfig envC8 false initialLayoutState rfl).1 (by simp [envC8])⟩

/-! ## Claim C4: deletion order inside validate -/

/-- A state whose previous snapshot contains the key "a", which the new
(empty) collection no longer contains. -/
def stC4 : LayoutState :=
  { layoutInfos := [("a", ⟨"item", "a", ⟨24, 24, 240, 240⟩, true⟩)]
    lastCollection := some [⟨"a", "item", none, none⟩]
    numColumns := 3
    itemWidth := 240
    horizontalSpacing := 16
    contentSize := ⟨800, 552⟩ }

/-- A loading environment whose collection no longer contains "a". -/
def envC4 : Env :=
  { collection := []
    visibleRect := ⟨800, 600⟩
    contentHeight := 0
    isLoading := true
    direction := .ltr }

/-- C4 counterexample: inside `validate`, the source runs `buildCollection`
first (line 89) and deletes stale keys only afterwards (lines 92-106), so at
the point where the build pass has populated its entries the removed key "a"
still has a cache entry; only the subsequent deletion step removes it. -/
theorem c4_build_runs_before_deletion_counterexample :
    (cacheGet (buildCollection defaultConfig envC4 false stC4).layoutInfos "a").isSome = true ∧
    cacheGet (validate defaultConfig envC4 false stC4).layoutInfos "a" = none := by
  constructor
  · norm_num [buildCollection, buildResultOf, buildLoop, cacheGet, cacheSet, stC4, envC4,
      show ("a" : String) ≠ "loader" from by decide,
      show ("loader" : String) ≠ "a" from by decide]
  · norm_num [validate, buildCollection, buildResultOf, buildLoop, deleteStale, collGetItem,
      cacheGet, cacheSet, cacheDelete, stC4, envC4,
      show ("a" : String) ≠ "loader" from by decide,
      show ("loader" : String) ≠ "a" from by decide]

/-- C4 amended: the deletion runs after the build pass, and since the build
pass writes entries only for keys of the new collection plus the synthetic
keys, after `validate` completes no entry remains for a removed key. -/
theorem c4_validate_removes_stale_keys (cfg : Config) (env : Env) (sz : Bool)
    (st : LayoutState) (last : List Node) (k : String)
    (hlast : st.lastCollection = some last)
    (hmem : k ∈ last.map Node.key)
    (hout : k ∉ env.collection.map Node.key)
    (hl : k ≠ "loader") (hp : k ≠ "placeholder") :
    cacheGet (validate cfg env sz st).layoutInfos k = none := by
  simp only [validate, hlast]
  by_cases hL : env.isLoading = true <;> by_cases hlen : env.collection.length > 0 <;>
    simp only [hL, hlen, if_true, if_false, if_pos, if_neg, Bool.false_eq_true,
      cacheGet_delete, cacheGet_deleteStale] <;>
    simp [hl, hp, hmem, hout, cacheGet_delete, cacheGet_deleteStale]

/-! ## Claim C3: the cache completeness invariant -/

/-- An empty, non-loading environment: the first validate adds a placeholder. -/
def envE1 : Env :=
  { collection := []
    visibleRect := ⟨800, 600⟩
    contentHeight := 0
    isLoading := false
    direction := .ltr }

/-- The same environment, now loading. -/
def envE2 : Env :=
  { collection := []
    visibleRect := ⟨800, 600⟩
    contentHeight := 0
    isLoading := true
    direction := .ltr }

/-- C3 counterexample: validate an empty, non-loading collection (placeholder
added), then validate again with the collection still empty but now loading.
The deletion step removes the placeholder only when `collection.size > 0`, so
the stale placeholder survives next to the loader even though the collection
is loading — contradicting "a placeholder entry if and only if the collection
is empty and not loading". -/
theorem c3_placeholder_persists_counterexample :
    envE2.collection = [] ∧ envE2.isLoading = true ∧
    (cacheGet (validate defaultConfig envE2 false
        (validate defaultConfig envE1 false initialLayoutState)).layoutInfos
      "placeholder").isSome = true := by
  refine ⟨rfl, rfl, ?_⟩
  norm_num [validate, buildCollection, buildResultOf, buildLoop, deleteStale, collGetItem,
    cacheGet, cacheSet, cacheDelete, envE1, envE2, initialLayoutState,
    show ("placeholder" : String) ≠ "loader" from by decide,
    show ("loader" : String) ≠ "placeholder" from by decide]

/-- Membership in the cache after a build pass: an entry is present exactly
when it was present before, is a key of the collection, is the loader while
loading, or is the placeholder while empty and not loading. -/
theorem buildCollection_get_isSome (cfg : Config) (env : Env) (sz : Bool)
    (st : LayoutState) (k : String) :
    (cacheGet (buildCollection cfg env sz st).layoutInfos k).isSome = true ↔
      ((cacheGet st.layoutInfos k).isSome = true ∨ k ∈ env.collection.map Node.key ∨
       (k = "loader" ∧ env.isLoading = true) ∨
       (k = "placeholder" ∧ env.collection = [] ∧ env.isLoading = false)) := by
  have hempty : env.collection.length = 0 ↔ env.collection = [] := List.length_eq_zero
  by_cases hL : env.isLoading = true
  · by_cases hlen : env.collection.length = 0
    · simp only [buildCollection]
      rw [if_pos hL, if_neg (by simp [hL])]
      rw [cacheGet_set]
      by_cases hk : k = "loader"
      · simp [hk, hL]
      · simp only [if_neg hk]
        simp only [buildResultOf]
        rw [buildLoop_get_isSome]
        simp [hk, hL]
    · simp only [buildCollection]
      rw [if_pos hL, if_neg (by simp [hL])]
      rw [cacheGet_set]
      by_cases hk : k = "loader"
      · simp [hk, hL]
      · simp only [if_neg hk]
        simp only [buildResultOf]
        rw [buildLoop_get_isSome]
        simp [hk, hL]
  · by_cases hlen : env.collection.length = 0
    · simp only [buildCollection]
      rw [if_neg hL, if_pos ⟨hlen, by simpa using hL⟩]
      rw [cacheGet_set]
      by_cases hk : k = "placeholder"
      · simp [hk, hL, hempty.mp hlen]
      · simp only [if_neg hk]
        simp only [buildResultOf]
        rw [buildLoop_get_isSome]
        simp [hk, hL]
    · simp only [buildCollection]
      rw [if_neg hL, if_neg (by rw [hempty] at hlen; simp [hlen])]
      simp only [buildResultOf]
      rw [buildLoop_get_isSome]
      have : ¬ env.collection = [] := by rw [← hempty]; exact hlen
      simp [hL, this]

/-- Membership in the cache after the deletion phase of `validate`, when a
previous snapshot exists. -/
theorem validate_get (cfg : Config) (env : Env) (sz : Bool) (st : LayoutState)
    (last : List Node) (hlc : st.lastCollection = some last) (k : String) :
    (cacheGet (validate cfg env sz st).layoutInfos k).isSome = true ↔
      ((cacheGet (buildCollection cfg env sz st).layoutInfos k).isSome = true ∧
       ¬(k ∈ last.map Node.key ∧ k ∉ env.collection.map Node.key) ∧
       ¬(env.isLoading = false ∧ k = "loader") ∧
       ¬(env.collection.length > 0 ∧ k = "placeholder")) := by
  simp only [validate, hlc]
  by_cases hL : env.isLoading = true <;> by_cases hlen : env.collection.length > 0 <;>
    by_cases hkl : k = "loader" <;> by_cases hkp : k = "placeholder" <;>
    by_cases hst : k ∈ last.map Node.key ∧ k ∉ env.collection.map Node.key <;>
    simp_all [cacheGet_delete, cacheGet_deleteStale, -List.mem_map] <;>
    rw [if_neg (by tauto)]

/-- The well-formedness invariant every reachable layout state satisfies
before a `validate` call: cache keys are unique; with no previous snapshot
the cache is empty; with a snapshot, every cached key comes from the snapshot
or is synthetic, and the snapshot's own keys avoid the synthetic names. -/
def WFState (st : LayoutState) : Prop :=
  (cacheKeys st.layoutInfos).Nodup ∧
  (st.lastCollection = none → st.layoutInfos = []) ∧
  (∀ last, st.lastCollection = some last →
    (∀ k, (cacheGet st.layoutInfos k).isSome = true →
      (k ∈ last.map Node.key ∨ k = "loader" ∨ k = "placeholder")) ∧
    (∀ n ∈ last, n.key ≠ "loader" ∧ n.key ≠ "placeholder"))

/-- The build pass preserves uniqueness of the cache keys. -/
theorem buildCollection_nodup (cfg : Config) (env : Env) (sz : Bool) (st : LayoutState)
    (h : (cacheKeys st.layoutInfos).Nodup) :
    (cacheKeys (buildCollection cfg env sz st).layoutInfos).Nodup := by
  have hloop : (cacheKeys (buildResultOf cfg env sz st.layoutInfos).1).Nodup := by
    simp only [buildResultOf]
    exact buildLoop_nodup _ _ _ _ _ _ _ h
  by_cases hL : env.isLoading = true
  · simp only [buildCollection]
    rw [if_pos hL, if_neg (by simp [hL])]
    simpa using nodup_cacheKeys_set _ "loader" _ hloop
  · by_cases hlen : env.collection.length = 0
    · simp only [buildCollection]
      rw [if_neg hL, if_pos ⟨hlen, by simpa using hL⟩]
      simpa using nodup_cacheKeys_set _ "placeholder" _ hloop
    · simp only [buildCollection]
      rw [if_neg hL, if_neg (by simp [hlen])]
      simpa using hloop

set_option maxHeartbeats 3200000 in
/-- C3 (amended): after `validate` from a well-formed state, the cache keys
are unique and an entry is present exactly for: each key of the current
collection, the loader if and only if loading, and the placeholder if and
only if the collection is empty and either it is not loading or a placeholder
entry was already present before the call (an empty-and-loading validate
does not delete a leftover placeholder). -/
theorem c3_validate_cache_completeness (cfg : Config) (env : Env) (sz : Bool)
    (st : LayoutState) (hWF : WFState st)
    (hsyn : ∀ n ∈ env.collection, n.key ≠ "loader" ∧ n.key ≠ "placeholder") :
    (cacheKeys (validate cfg env sz st).layoutInfos).Nodup ∧
    (∀ k, (cacheGet (validate cfg env sz st).layoutInfos k).isSome = true ↔
      (k ∈ env.collection.map Node.key ∨
       (k = "loader" ∧ env.isLoading = true) ∨
       (k = "placeholder" ∧ env.collection = [] ∧
         (env.isLoading = false ∨ (cacheGet st.layoutInfos "placeholder").isSome = true)))) := by
  obtain ⟨hnodup, hnone, hsome⟩ := hWF
  constructor
  · -- uniqueness of keys
    have hb := buildCollection_nodup cfg env sz st hnodup
    cases hlc : st.lastCollection with
    | none => simpa [validate, hlc] using hb
    | some last =>
      have h2 := nodup_deleteStale env.collection last _ hb
      by_cases hL : env.isLoading = true <;> by_cases hlen : env.collection.length > 0 <;>
        simp [validate, hlc, hL, hlen, nodup_cacheKeys_delete, h2]
  · intro k
    cases hlc : st.lastCollection with
    | none =>
      have hcache : st.layoutInfos = [] := hnone hlc
      simp only [validate, hlc]
      rw [buildCollection_get_isSome, hcache]
      simp [cacheGet]
    | some last =>
      obtain ⟨hdom, hsynlast⟩ := hsome last hlc
      have hsynk : k ∈ env.collection.map Node.key → k ≠ "loader" ∧ k ≠ "placeholder" := by
        intro hmem
        rw [List.mem_map] at hmem
        obtain ⟨n, hn, hkn⟩ := hmem
        exact hkn ▸ hsyn n hn
      have hsynlastk : k = "loader" ∨ k = "placeholder" → k ∉ last.map Node.key := by
        intro hk hmem
        rw [List.mem_map] at hmem
        obtain ⟨n, hn, hkn⟩ := hmem
        rcases hk with hk | hk
        · exact (hsynlast n hn).1 (hkn.trans hk)
        · exact (hsynlast n hn).2 (hkn.trans hk)
      have hlenpos : (env.collection.length > 0) = ¬(env.collection = []) := by
        rw [eq_iff_iff, ← List.length_eq_zero]
        omega
      have hLb : (env.isLoading = false) = ¬(env.isLoading = true) := by
        cases env.isLoading <;> simp
      rw [validate_get cfg env sz st last hlc k, buildCollection_get_isSome, hlenpos, hLb]
      by_cases hkp : k = "placeholder"
      · subst hkp
        have h1 : "placeholder" ∉ env.collection.map Node.key :=
          fun hm => (hsynk hm).2 rfl
        have h2 : "placeholder" ∉ last.map Node.key := hsynlastk (Or.inr rfl)
        have h3 : ¬ (("placeholder" : String) = "loader") := by decide
        tauto
      · by_cases hkl : k = "loader"
        · subst hkl
          have h1 : "loader" ∉ env.collection.map Node.key :=
            fun hm => (hsynk hm).1 rfl
          have h2 : "loader" ∉ last.map Node.key := hsynlastk (Or.inl rfl)
          tauto
        · have h1 : (cacheGet st.layoutInfos k).isSome = true → k ∈ last.map Node.key := by
            intro hpre
            rcases hdom k hpre with h | h | h
            · exact h
            · exact absurd h hkl
            · exact absurd h hkp
          tauto

/-- A one-item, non-loading environment for the C3 witness. -/
def envW : Env :=
  { collection := [⟨"a", "item", none, none⟩]
    visibleRect := ⟨800, 600⟩
    contentHeight := 0
    isLoading := false
    direction := .ltr }

/-- Witness for C3: the fresh state is well formed, the item key avoids the
synthetic names, and after `validate` the item's entry is present. -/
theorem c3_validate_cache_completeness_witness :
    WFState initialLayoutState ∧
    (∀ n ∈ envW.collection, n.key ≠ "loader" ∧ n.key ≠ "placeholder") ∧
    (cacheGet (validate defaultConfig envW false initialLayoutState).layoutInfos "a").isSome
      = true := by
  have hWF : WFState initialLayoutState :=
    ⟨by simp [initialLayoutState, cacheKeys], fun _ => rfl,
      fun last hl => by simp [initialLayoutState] at hl⟩
  have hsyn : ∀ n ∈ envW.collection, n.key ≠ "loader" ∧ n.key ≠ "placeholder" := by
    intro n hn
    simp only [envW, List.mem_singleton] at hn
    subst hn
    exact ⟨by decide, by decide⟩
  refine ⟨hWF, hsyn, ?_⟩
  exact ((c3_validate_cache_completeness defaultConfig envW false initialLayoutState
    hWF hsyn).2 "a").mpr (Or.inl (by simp [envW]))

/-- Witness for C4 (amended) at the concrete removed key "a". -/
theorem c4_validate_removes_stale_keys_witness :
    stC4.lastCollection = some [⟨"a", "item", none, none⟩] ∧
    "a" ∈ ([(⟨"a", "item", none, none⟩ : Node)].map Node.key) ∧
    "a" ∉ envC4.collection.map Node.key ∧
    cacheGet (validate defaultConfig envC4 false stC4).layoutInfos "a" = none :=
  ⟨rfl, by simp, by simp [envC4],
    c4_validate_removes_stale_keys defaultConfig envC4 false stC4 _ "a" rfl (by simp)
      (by simp [envC4]) (by decide) (by decide)⟩

end Waterfall
